import Mathlib

/-!
# sous: test harness daemon, owner sets, status middleware, Singularity volume DTO

A shallow embedding of

* `util/test_with_docker/local_daemon.go` (`LocalDaemon`),
* `lib/owner_set.go` (`OwnerSet`),
* `util/restful/statusmiddleware.go` (`StatusMiddleware`),
* `vendor/github.com/opentable/singularity/dtos/singularity_volume.go`
  (`SingularityVolume`).

Effects on the daemon host are made explicit: every operation takes the trace of
effects performed so far and returns the extended trace.  The outcome of each
external action (a shell command, `ioutil.TempDir`, digesting) is given by an
oracle that may depend on the whole history, so the theorems hold for every
behaviour of the host.
-/

namespace Sous

/-! ## Go values -/

/-- A non-nil Go `error`, identified by its message.  A Go value of type
`error` is an `Option GoError`; `none` is `nil`. -/
abbrev GoError := String

/-- A value of type `interface{}`, by its dynamic type. -/
inductive GoValue where
  | nil
  | str (s : String)
  | int (n : Int)
  | bool (b : Bool)
  | error (e : GoError)
deriving DecidableEq, Repr

/-- The name Go prints for the dynamic type of a non-nil value that is not an
`error`. -/
def GoValue.typeName : GoValue → String
  | GoValue.str _ => "string"
  | GoValue.int _ => "int"
  | GoValue.bool _ => "bool"
  | _ => "error"

/-- A string built by `fmt.Sprintf`, kept as the format and its operands. -/
structure Message where
  format : String
  args : List GoValue
deriving DecidableEq, Repr

/-- A Go `map[string]β`, as an association list with at most one entry per key
(maintained by `mapAssign`). -/
abbrev GoMap (β : Type) := List (String × β)

/-- The comma-ok lookup `v, ok := m[k]`. -/
def mapLookup {β : Type} (m : GoMap β) (k : String) : Option β :=
  match m with
  | [] => none
  | (k', v) :: rest => if k' = k then some v else mapLookup rest k

/-- The plain index expression `m[k]` on a `map[string]string`: the zero value
`""` when the key is missing. -/
def mapIndex (m : GoMap String) (k : String) : String :=
  (mapLookup m k).getD ""

/-- The assignment `m[k] = v`. -/
def mapAssign {β : Type} (m : GoMap β) (k : String) (v : β) : GoMap β :=
  match m with
  | [] => [(k, v)]
  | (k', v') :: rest => if k' = k then (k, v) :: rest else (k', v') :: mapAssign rest k v

/-! ## The daemon host -/

/-- Modelled from the spec: the type `command` is declared outside the sources
at hand.  The spec describes it as "a single shell invocation — program name,
ordered argument list, captured outcome (success/failure plus any error)". -/
structure command where
  name : String
  args : List String
  err : Option GoError
deriving DecidableEq, Repr

/-- The effects the local daemon has on its host, in the order they happen. -/
inductive Event where
  /-- A call `runCommand(name, args...)`, with the `err` it captured. -/
  | run (cmd : List String) (err : Option GoError)
  /-- A call `ioutil.TempDir(dir, pfx)` and what it returned. -/
  | tempDir (dir pfx : String) (res : Except GoError String)
  /-- A call `os.MkdirAll(path, os.ModeDir|os.ModePerm)`; its result is dropped by the caller. -/
  | mkdirAll (path : String)
  /-- A call `localMD5s(paths...)` and the digest map it returned. -/
  | digest (paths : List String) (md5s : GoMap String)
  /-- A call `os.RemoveAll(path)`; its result is dropped by the caller. -/
  | removeAll (path : String)
  /-- A call `dockerComposeDown(c)`. -/
  | composeDown (c : command)

abbrev Trace := List Event

/-- The host a `LocalDaemon` talks to.  Each field answers one external action,
given the history of effects so far.

`runCommand`, `localMD5s` are functions of the package that are not among the
sources at hand, and `filepath.Dir`, `filepath.Join`, `ioutil.TempDir` are
library functions; all are left arbitrary.  For `localMD5s` the spec only says
that it "produces a content digest per path": a path that could not be
digested has no entry in the returned map. -/
structure Host where
  runCommand : Trace → List String → Option GoError
  tempDir : Trace → String → String → Except GoError String
  localMD5s : Trace → List String → GoMap String
  /-- The library function `filepath.Dir`. -/
  dir : String → String
  /-- The library function `filepath.Join`, on two elements. -/
  join : String → String → String

/-- Method `LocalDaemon.Exec`: `cmd := runCommand("sudo", args...)`, log the command
line, `return cmd.err`.  The log line is part of the `run` event. -/
def Exec (h : Host) (args : List String) (t : Trace) : Option GoError × Trace :=
  let cmd := "sudo" :: args
  let err := h.runCommand t cmd
  (err, t ++ [Event.run cmd err])

/-- Method `LocalDaemon.InstallFile`. -/
def InstallFile (h : Host) (src dest : String) (t : Trace) : Option GoError × Trace :=
  let destDir := h.dir dest
  let (_, t1) := Exec h ["mkdir", "-p", destDir] t
  Exec h ["cp", src, dest] t1

/-- The candidate list `rss` of `RestartDaemon`. -/
def rss : List (List String) :=
  [ ["/etc/init.d/docker", "restart"],
    ["service", "docker", "restart"],
    ["systemctl", "restart", "docker", "docker.socket"] ]

/-- The `for _, rs := range rss` loop of `RestartDaemon`, started with the
current value of `err`. -/
def restartLoop (h : Host) : List (List String) → Option GoError → Trace → Option GoError × Trace
  | [], err, t => (err, t)
  | rs :: rest, _, t =>
    match Exec h rs t with
    | (none, t1) => (none, t1)
    | (some e, t1) => restartLoop h rest (some e) t1

/-- Method `LocalDaemon.RestartDaemon`. -/
def RestartDaemon (h : Host) (t : Trace) : Option GoError × Trace :=
  restartLoop h rss none t

/-- Method `LocalDaemon.Shutdown`. -/
def Shutdown (c : Option command) (t : Trace) : Trace :=
  match c with
  | some c => t ++ [Event.composeDown c]
  | none => t

/-- The staging loop of `MD5s`: for each path, `tgt := filepath.Join(dir, p)`,
`os.MkdirAll(filepath.Dir(tgt), ...)`, `ld.Exec("cp", p, tgt)`, and record
`tgt` in `tgts` and under `p` in `md5`. -/
def stageLoop (h : Host) (dir : String) :
    List String → List String → GoMap String → Trace → List String × GoMap String × Trace
  | [], tgts, md5, t => (tgts, md5, t)
  | p :: rest, tgts, md5, t =>
    let tgt := h.join dir p
    let t1 := t ++ [Event.mkdirAll (h.dir tgt)]
    let (_, t2) := Exec h ["cp", p, tgt] t1
    stageLoop h dir rest (tgts ++ [tgt]) (mapAssign md5 p tgt) t2

/-- Method `LocalDaemon.MD5s`. -/
def MD5s (h : Host) (paths : List String) (t : Trace) : Except GoError (GoMap String) × Trace :=
  match h.tempDir t "/tmp" "md5" with
  | .error e => (.error e, t ++ [Event.tempDir "/tmp" "md5" (.error e)])
  | .ok dir =>
    let t0 := t ++ [Event.tempDir "/tmp" "md5" (.ok dir)]
    let (tgts, md5, t1) := stageLoop h dir paths [] [] t0
    let (_, t2) := Exec h ["chmod", "-R", "gwo+rw", dir] t1
    let tmd5s := h.localMD5s t2 tgts
    let t3 := t2 ++ [Event.digest tgts tmd5s]
    let t4 := t3 ++ [Event.removeAll dir]
    (.ok (md5.map fun pt => (pt.1, mapIndex tmd5s pt.2)), t4)

/-- One step of the staging-directory bookkeeping: a successful `TempDir`
creates its directory, `RemoveAll` removes the directory it names. -/
def liveStep (live : List String) (ev : Event) : List String :=
  match ev with
  | Event.tempDir _ _ (.ok d) => live ++ [d]
  | Event.removeAll p => live.filter (fun d => d ≠ p)
  | _ => live

/-- The temporary directories that exist on the host after a trace. -/
def liveTempDirs (t : Trace) : List String :=
  t.foldl liveStep []

/-- The commands a trace ran for staging or digesting: `cp`, `chmod`,
`MkdirAll` and digest events. -/
def isStaging : Event → Bool
  | Event.run _ _ => true
  | Event.mkdirAll _ => true
  | Event.digest _ _ => true
  | _ => false

/-! ## Owner sets (`lib/owner_set.go`) -/

/-- The type `OwnerSet`, a `map[string]struct{}`: its keys, in the order a
`range` visits them (any order is possible, no key is repeated). -/
structure OwnerSet where
  owners : List String
  nodup : owners.Nodup

/-- Method `OwnerSet.Add`. -/
def OwnerSet.Add (os : OwnerSet) (owner : String) : OwnerSet :=
  if h : owner ∈ os.owners then os
  else ⟨owner :: os.owners, List.nodup_cons.mpr ⟨h, os.nodup⟩⟩

/-- Method `OwnerSet.Remove`. -/
def OwnerSet.Remove (os : OwnerSet) (owner : String) : OwnerSet :=
  ⟨os.owners.erase owner, os.nodup.erase owner⟩

/-- Function `NewOwnerSet`. -/
def NewOwnerSet (owners : List String) : OwnerSet :=
  owners.foldl OwnerSet.Add ⟨[], List.nodup_nil⟩

/-- The loop `for ownr := range os` of `Diff`, appending to `diffs`. -/
def diffLoop (o : OwnerSet) : List String → List Message → List Message
  | [], diffs => diffs
  | ownr :: rest, diffs =>
    if ownr ∈ o.owners then diffLoop o rest diffs
    else diffLoop o rest (diffs ++ [⟨"Owner %q missing from other", [GoValue.str ownr]⟩])

/-- Method `OwnerSet.Diff`. -/
def OwnerSet.Diff (os o : OwnerSet) : Bool × List Message :=
  let diffs : List Message :=
    if os.owners.length ≠ o.owners.length then
      [⟨"different lengths: %d vs %d",
        [GoValue.int os.owners.length, GoValue.int o.owners.length]⟩]
    else []
  let diffs := diffLoop o os.owners diffs
  (decide (diffs.length ≠ 0), diffs)

/-- Method `OwnerSet.Equal`. -/
def OwnerSet.Equal (os o : OwnerSet) : Bool :=
  let (diff, _) := os.Diff o
  !diff

/-! ## Status middleware (`util/restful/statusmiddleware.go`) -/

/-- The value of the embedded `logSet` interface when it is not nil: the
`fallbackLogger` installed by `HandlePanic`, or a logger given at construction. -/
inductive Logger where
  | fallbackLogger
  | configured
deriving DecidableEq, Repr

/-- The type `StatusMiddleware`. -/
structure StatusMiddleware where
  gatelatch : String
  logSet : Option Logger
deriving DecidableEq, Repr

/-- What reaches the response writer.  A formatted write is kept as the format
and its operands, as passed to `fmt.Sprintf`. -/
inductive WEvent where
  | writeHeader (status : Nat)
  | printf (format : String) (args : List GoValue)
  | bytes (b : String)
deriving DecidableEq, Repr

/-- The request, as far as the middleware reads it:
`rq.Header.Get("X-Gatelatch")`. -/
structure Request where
  xGatelatch : String
deriving DecidableEq, Repr

/-- The process around the handler: `os.Getenv("GATELATCH")` and the bytes
`debug.Stack()` returns. -/
structure Runtime where
  GATELATCH : String
  stack : String

/-- The state a handler call works on: the receiver `ph`, what was written to
`w`, and the lines handed to the logger (format and operands). -/
structure Served where
  ph : StatusMiddleware
  w : List WEvent
  log : List (Logger × String × List GoValue)
deriving DecidableEq, Repr

/-- A Go computation on `Served`: it returns normally (`Except.ok`) or panics
with a runtime error (`Except.error`); the state reached is kept either way. -/
abbrev Go := ExceptT String (StateM Served)

/-- Call `w.WriteHeader(status)`. -/
def WriteHeader (status : Nat) : Go Unit :=
  modify fun s => { s with w := s.w ++ [WEvent.writeHeader status] }

/-- Call `w.Write(b)`. -/
def Write (ev : WEvent) : Go Unit :=
  modify fun s => { s with w := s.w ++ [ev] }

/-- Call `ph.Warnf(format, args...)`, promoted from the embedded `logSet`:
a nil interface there is a nil dereference. -/
def Warnf (format : String) (args : List GoValue) : Go Unit := do
  let s ← get
  match s.ph.logSet with
  | none => throw "runtime error: invalid memory address or nil pointer dereference"
  | some l => set { s with log := s.log ++ [(l, format, args)] }

/-- The type assertion `recovered.(error)` in its single-value form: it panics
unless the dynamic type implements `error`. -/
def assertError (v : GoValue) : Go GoError :=
  match v with
  | GoValue.error e => pure e
  | GoValue.nil => throw "interface conversion: interface is nil, not error"
  | v => throw ("interface conversion: " ++ v.typeName ++ " is not error: missing method Error")

/-- A value of type `error` as an operand of `fmt.Sprintf`. -/
def errValue : Option GoError → GoValue
  | none => GoValue.nil
  | some e => GoValue.error e

/-- Method `StatusMiddleware.errorBody`. -/
def errorBody (rt : Runtime) (status : Nat) (rq : Request) (data : GoValue)
    (err : Option GoError) (stack : Option String) : Go Unit := do
  let gatelatch := rt.GATELATCH
  if gatelatch = "" then
    Write (WEvent.printf "%s\n" [data])
  else
    let header := rq.xGatelatch
    if header ≠ gatelatch then
      Write (WEvent.printf "%s\n" [data])
      Warnf "Gatelatch header (%q) didn't match gatelatch env (%s)"
        [GoValue.str gatelatch, GoValue.str header]
    else
      Write (WEvent.printf "Error status: %d\n" [GoValue.int status])
      Write (WEvent.printf "Data: %#v\n" [data])
      Write (WEvent.printf "Error: %+v\n" [errValue err])
      match stack with
      | none =>
        Write (WEvent.bytes "Created stack: \n")
        Write (WEvent.bytes rt.stack)
      | some st =>
        Write (WEvent.bytes "Passed (panic) stack: \n")
        Write (WEvent.bytes st)

/-- Method `StatusMiddleware.HandlePanic`. -/
def HandlePanic (rt : Runtime) (r : Request) (recovered : GoValue) : Go Unit := do
  WriteHeader 500
  let stack := rt.stack
  let s ← get
  if s.ph.logSet = none then
    set { s with ph := { s.ph with logSet := some Logger.fallbackLogger } }
  Warnf "%+v" [recovered]
  Warnf stack []
  Warnf "Recovered, returned 500" []
  let err ← assertError recovered
  errorBody rt 500 r GoValue.nil (some err) (some stack)

/-! ## Singularity volume DTO -/

/-- The type `SingularityVolume`; `present` is `none` for a nil map. -/
structure SingularityVolume where
  present : Option (GoMap Bool)
  ContainerPath : String
  HostPath : String
deriving DecidableEq, Repr

/-- The errors built with `fmt.Errorf` in the volume's methods, by format and
operands. -/
inductive FieldError where
  /-- Format "No such field %s on SingularityVolume". -/
  | noSuchField (name : String)
  /-- Format "Field f/F: value %v(%T) couldn't be cast to type string". -/
  | badCast (field : String) (value : GoValue)
  /-- Format "Field F no set on F %+v". -/
  | notSet (field : String) (self : SingularityVolume)
deriving DecidableEq, Repr

/-- The guard `if self.present == nil { self.present = make(map[string]bool) }`. -/
def ensurePresent (self : SingularityVolume) : SingularityVolume × GoMap Bool :=
  match self.present with
  | none => ({ self with present := some [] }, [])
  | some m => (self, m)

/-- Method `SingularityVolume.SetField`: the error returned (`none` is nil) and
the receiver afterwards. -/
def SingularityVolume.SetField (self : SingularityVolume) (name : String) (value : GoValue) :
    Option FieldError × SingularityVolume :=
  let (self, present) := ensurePresent self
  if name = "containerPath" ∨ name = "ContainerPath" then
    match value with
    | GoValue.str v =>
      (none, { self with ContainerPath := v,
                         present := some (mapAssign present "containerPath" true) })
    | _ => (some (FieldError.badCast "containerPath/ContainerPath" value), self)
  else if name = "hostPath" ∨ name = "HostPath" then
    match value with
    | GoValue.str v =>
      (none, { self with HostPath := v,
                         present := some (mapAssign present "hostPath" true) })
    | _ => (some (FieldError.badCast "hostPath/HostPath" value), self)
  else
    (some (FieldError.noSuchField name), self)

/-- Method `SingularityVolume.GetField`. -/
def SingularityVolume.GetField (self : SingularityVolume) (name : String) :
    Except FieldError GoValue :=
  if name = "containerPath" ∨ name = "ContainerPath" then
    match self.present with
    | some present =>
      match mapLookup present "containerPath" with
      | some _ => .ok (GoValue.str self.ContainerPath)
      | none => .error (FieldError.notSet "ContainerPath" self)
    | none => .error (FieldError.notSet "ContainerPath" self)
  else if name = "hostPath" ∨ name = "HostPath" then
    match self.present with
    | some present =>
      match mapLookup present "hostPath" with
      | some _ => .ok (GoValue.str self.HostPath)
      | none => .error (FieldError.notSet "HostPath" self)
    | none => .error (FieldError.notSet "HostPath" self)
  else
    .error (FieldError.noSuchField name)

/-- Method `SingularityVolume.ClearField`. -/
def SingularityVolume.ClearField (self : SingularityVolume) (name : String) :
    Option FieldError × SingularityVolume :=
  let (self, present) := ensurePresent self
  if name = "containerPath" ∨ name = "ContainerPath" then
    (none, { self with present := some (mapAssign present "containerPath" false) })
  else if name = "hostPath" ∨ name = "HostPath" then
    (none, { self with present := some (mapAssign present "hostPath" false) })
  else
    (some (FieldError.noSuchField name), self)
/-! ## Concrete hosts -/

/-- A host on which the init script is missing and everything else works. -/
def hostNoInitScript : Host where
  runCommand := fun _ cmd =>
    if cmd = ["sudo", "/etc/init.d/docker", "restart"] then some "exit status 127" else none
  tempDir := fun _ _ _ => .ok "/tmp/md5042"
  localMD5s := fun _ _ => []
  dir := fun _ => "/etc/docker"
  join := fun a b => a ++ "/" ++ b

/-- A host on which every command fails, with an error naming the program. -/
def hostAllFail : Host where
  runCommand := fun _ cmd => some (cmd.getD 1 "" ++ ": not found")
  tempDir := fun _ _ _ => .error "no space left on device"
  localMD5s := fun _ _ => []
  dir := fun _ => "/etc/docker"
  join := fun a b => a ++ "/" ++ b

/-- A host on which `mkdir` fails and every other command succeeds. -/
def hostNoMkdir : Host where
  runCommand := fun _ cmd => if cmd.getD 1 "" = "mkdir" then some "exit status 1" else none
  tempDir := fun _ _ _ => .ok "/tmp/md5042"
  localMD5s := fun _ _ => []
  dir := fun _ => "/etc/docker"
  join := fun a b => a ++ "/" ++ b

/-- The run of `RestartDaemon` in closed form, by the host's answers. -/
theorem RestartDaemon_run (h : Host) (t : Trace) :
    RestartDaemon h t =
      match h.runCommand t ["sudo", "/etc/init.d/docker", "restart"] with
      | none => (none, t ++ [Event.run ["sudo", "/etc/init.d/docker", "restart"] none])
      | some e1 =>
        let t1 := t ++ [Event.run ["sudo", "/etc/init.d/docker", "restart"] (some e1)]
        match h.runCommand t1 ["sudo", "service", "docker", "restart"] with
        | none => (none, t1 ++ [Event.run ["sudo", "service", "docker", "restart"] none])
        | some e2 =>
          let t2 := t1 ++ [Event.run ["sudo", "service", "docker", "restart"] (some e2)]
          let r3 := h.runCommand t2 ["sudo", "systemctl", "restart", "docker", "docker.socket"]
          (r3, t2 ++ [Event.run ["sudo", "systemctl", "restart", "docker", "docker.socket"] r3]) := by
  cases h1 : h.runCommand t ["sudo", "/etc/init.d/docker", "restart"] with
  | none => simp [RestartDaemon, rss, restartLoop, Exec, h1]
  | some e1 =>
    cases h2 : h.runCommand (t ++ [Event.run ["sudo", "/etc/init.d/docker", "restart"] (some e1)])
        ["sudo", "service", "docker", "restart"] with
    | none => simp [RestartDaemon, rss, restartLoop, Exec, h1, h2]
    | some e2 =>
      cases h3 : h.runCommand (t ++ [Event.run ["sudo", "/etc/init.d/docker", "restart"] (some e1)]
          ++ [Event.run ["sudo", "service", "docker", "restart"] (some e2)])
          ["sudo", "systemctl", "restart", "docker", "docker.socket"] <;>
        simp [RestartDaemon, rss, restartLoop, Exec, h1, h2, h3] <;> simp_all

/-- C1: RestartDaemon runs `/etc/init.d/docker restart`, `service docker restart`,
`systemctl restart docker docker.socket` in this order through `Exec`, goes on
after each failure, and returns nil at the first success without running any
later candidate.  Whatever the host answers, the run is one of: first succeeds
(one command run); first fails and second succeeds (two commands run, the third
never); first two fail (all three run, the result is the third's). -/
theorem RestartDaemon_stops_at_first_success (h : Host) (t : Trace) :
    let c1 := ["sudo", "/etc/init.d/docker", "restart"]
    let c2 := ["sudo", "service", "docker", "restart"]
    let c3 := ["sudo", "systemctl", "restart", "docker", "docker.socket"]
    let r1 := h.runCommand t c1
    let t1 := t ++ [Event.run c1 r1]
    let r2 := h.runCommand t1 c2
    let t2 := t1 ++ [Event.run c2 r2]
    let r3 := h.runCommand t2 c3
    let t3 := t2 ++ [Event.run c3 r3]
    (r1 = none → RestartDaemon h t = (none, t1)) ∧
    (r1 ≠ none → r2 = none → RestartDaemon h t = (none, t2)) ∧
    (r1 ≠ none → r2 ≠ none → RestartDaemon h t = (r3, t3)) := by
  intro c1 c2 c3 r1 t1 r2 t2 r3 t3
  have key := RestartDaemon_run h t
  refine ⟨?_, ?_, ?_⟩
  · intro h1
    have h1' : h.runCommand t ["sudo", "/etc/init.d/docker", "restart"] = none := h1
    rw [key, h1']
    simp [t1, r1, c1, h1']
  · intro h1 h2
    obtain ⟨e1, he1⟩ := Option.ne_none_iff_exists'.mp h1
    have h1' : h.runCommand t ["sudo", "/etc/init.d/docker", "restart"] = some e1 := he1
    have h2' : h.runCommand (t ++ [Event.run ["sudo", "/etc/init.d/docker", "restart"] (some e1)])
        ["sudo", "service", "docker", "restart"] = none := by
      have := h2
      simpa [r2, t1, r1, c1, c2, h1'] using this
    rw [key, h1']
    simp [h2', t2, t1, r1, r2, c1, c2, h1']
  · intro h1 h2
    obtain ⟨e1, he1⟩ := Option.ne_none_iff_exists'.mp h1
    obtain ⟨e2, he2⟩ := Option.ne_none_iff_exists'.mp h2
    have h1' : h.runCommand t ["sudo", "/etc/init.d/docker", "restart"] = some e1 := he1
    have h2' : h.runCommand (t ++ [Event.run ["sudo", "/etc/init.d/docker", "restart"] (some e1)])
        ["sudo", "service", "docker", "restart"] = some e2 := by
      have := he2
      simpa [r2, t1, r1, c1, c2, h1'] using this
    rw [key, h1']
    simp [h2', t3, t2, t1, r1, r2, r3, c1, c2, c3, h1']

/-- On a host without the init script, the restart succeeds by the second
candidate and `systemctl` is never run. -/
theorem RestartDaemon_stops_at_first_success_witness :
    RestartDaemon hostNoInitScript [] =
      (none, [Event.run ["sudo", "/etc/init.d/docker", "restart"] (some "exit status 127"),
              Event.run ["sudo", "service", "docker", "restart"] none]) :=
  (RestartDaemon_stops_at_first_success hostNoInitScript []).2.1 (by decide) (by decide)

/-- C2: when all three restart candidates fail, RestartDaemon has run each of
them exactly once, in order, and returns the error of the last one
(`systemctl`), not an earlier one; and in every run it returns nil exactly when
one of the commands it ran succeeded. -/
theorem RestartDaemon_all_fail_returns_last_error (h : Host) (t : Trace) :
    let c1 := ["sudo", "/etc/init.d/docker", "restart"]
    let c2 := ["sudo", "service", "docker", "restart"]
    let c3 := ["sudo", "systemctl", "restart", "docker", "docker.socket"]
    (∀ e1 e2 e3 : GoError,
      h.runCommand t c1 = some e1 →
      h.runCommand (t ++ [Event.run c1 (some e1)]) c2 = some e2 →
      h.runCommand (t ++ [Event.run c1 (some e1), Event.run c2 (some e2)]) c3 = some e3 →
      RestartDaemon h t =
        (some e3, t ++ [Event.run c1 (some e1), Event.run c2 (some e2), Event.run c3 (some e3)])) ∧
    ((RestartDaemon h t).1 = none ↔
      ∃ cmd, Event.run cmd none ∈ (RestartDaemon h t).2.drop t.length) := by
  intro c1 c2 c3
  have key := RestartDaemon_run h t
  refine ⟨?_, ?_⟩
  · intro e1 e2 e3 h1 h2 h3
    have h2' : h.runCommand (t ++ [Event.run ["sudo", "/etc/init.d/docker", "restart"] (some e1)])
        ["sudo", "service", "docker", "restart"] = some e2 := h2
    have h3' : h.runCommand (t ++ [Event.run ["sudo", "/etc/init.d/docker", "restart"] (some e1),
        Event.run ["sudo", "service", "docker", "restart"] (some e2)])
        ["sudo", "systemctl", "restart", "docker", "docker.socket"] = some e3 := h3
    have h1' : h.runCommand t ["sudo", "/etc/init.d/docker", "restart"] = some e1 := h1
    rw [key, h1']
    simp [h2', h3', c1, c2, c3]
  · rw [key]
    cases h1 : h.runCommand t ["sudo", "/etc/init.d/docker", "restart"] with
    | none => simp
    | some e1 =>
      cases h2 : h.runCommand (t ++ [Event.run ["sudo", "/etc/init.d/docker", "restart"] (some e1)])
          ["sudo", "service", "docker", "restart"] with
      | none => simp [h2]
      | some e2 =>
        cases h3 : h.runCommand (t ++ [Event.run ["sudo", "/etc/init.d/docker", "restart"] (some e1),
            Event.run ["sudo", "service", "docker", "restart"] (some e2)])
            ["sudo", "systemctl", "restart", "docker", "docker.socket"] <;>
          simp [h2, h3]

/-- On a host where every command fails, all three candidates are run and the
error returned is the one of `systemctl`. -/
theorem RestartDaemon_all_fail_returns_last_error_witness :
    RestartDaemon hostAllFail [] =
      (some "systemctl: not found",
       [Event.run ["sudo", "/etc/init.d/docker", "restart"] (some "/etc/init.d/docker: not found"),
        Event.run ["sudo", "service", "docker", "restart"] (some "service: not found"),
        Event.run ["sudo", "systemctl", "restart", "docker", "docker.socket"]
          (some "systemctl: not found")]) :=
  (RestartDaemon_all_fail_returns_last_error hostAllFail []).1
    "/etc/init.d/docker: not found" "service: not found" "systemctl: not found"
    (by decide) (by decide) (by decide)

/-! ## File installation -/

/-- C3 (as the spec states it, refuted): on a host where `mkdir -p` fails and
`cp` succeeds, the directory creation fails and InstallFile still returns nil. -/
theorem InstallFile_mkdir_failure_not_reported :
    (Exec hostNoMkdir ["mkdir", "-p", hostNoMkdir.dir "/etc/docker/daemon.json"] []).1
        = some "exit status 1" ∧
    InstallFile hostNoMkdir "daemon.json" "/etc/docker/daemon.json" [] =
      (none, [Event.run ["sudo", "mkdir", "-p", "/etc/docker"] (some "exit status 1"),
              Event.run ["sudo", "cp", "daemon.json", "/etc/docker/daemon.json"] none]) := by
  constructor <;> rfl

/-- C3 (amended): InstallFile runs `mkdir -p <filepath.Dir(dest)>` and then
`cp src dest` through Exec, the copy whatever the outcome of the directory
creation, and returns exactly the outcome of the copy: it fails if and only if
the copy fails. -/
theorem InstallFile_returns_cp_outcome (h : Host) (src dest : String) (t : Trace) :
    let mk := ["sudo", "mkdir", "-p", h.dir dest]
    let cp := ["sudo", "cp", src, dest]
    let rmk := h.runCommand t mk
    let rcp := h.runCommand (t ++ [Event.run mk rmk]) cp
    InstallFile h src dest t = (rcp, t ++ [Event.run mk rmk, Event.run cp rcp]) ∧
    ((InstallFile h src dest t).1 = none ↔ rcp = none) := by
  simp [InstallFile, Exec]

/-! ## Shutdown -/

/-- C6: Shutdown with a nil handle leaves the trace of effects unchanged (no
compose-down, nothing else), and it always returns; with a non-nil handle it
adds exactly one `dockerComposeDown` on that handle.  So a compose-down happens
if and only if the handle is non-nil. -/
theorem Shutdown_nil_is_noop (t : Trace) :
    Shutdown none t = t ∧
    (∀ c : command, Shutdown (some c) t = t ++ [Event.composeDown c]) ∧
    (∀ (hd : Option command) (c : command),
      Event.composeDown c ∈ (Shutdown hd t).drop t.length ↔ hd = some c) ∧
    (∀ hd : Option command, ((Shutdown hd t).drop t.length).length = if hd = none then 0 else 1) := by
  refine ⟨rfl, fun _ => rfl, ?_, ?_⟩
  · intro hd c
    cases hd with
    | none => simp [Shutdown]
    | some c' =>
      simp [Shutdown]
      exact eq_comm
  · intro hd
    cases hd <;> simp [Shutdown]

/-! ## Remote digests -/

theorem mapLookup_mapAssign {β : Type} (m : GoMap β) (k : String) (v : β) (k' : String) :
    mapLookup (mapAssign m k v) k' = if k = k' then some v else mapLookup m k' := by
  induction m with
  | nil => simp [mapAssign, mapLookup]
  | cons kv rest ih =>
    obtain ⟨k0, v0⟩ := kv
    by_cases h0 : k0 = k
    · subst h0
      by_cases h1 : k0 = k' <;> simp [mapAssign, mapLookup, h1]
    · by_cases h1 : k0 = k'
      · subst h1
        have : ¬ k = k0 := fun e => h0 e.symm
        simp [mapAssign, mapLookup, h0, this]
      · simp [mapAssign, mapLookup, h0, h1, ih]

theorem stageLoop_run (h : Host) (dir : String) (paths : List String) :
    ∀ (tgts : List String) (md5 : GoMap String) (t : Trace),
    ∃ staging : Trace,
      stageLoop h dir paths tgts md5 t =
        (tgts ++ paths.map (h.join dir),
         paths.foldl (fun m p => mapAssign m p (h.join dir p)) md5,
         t ++ staging) ∧
      ∀ ev ∈ staging, isStaging ev = true := by
  induction paths with
  | nil =>
    intro tgts md5 t
    exact ⟨[], by simp [stageLoop], by simp⟩
  | cons p rest ih =>
    intro tgts md5 t
    obtain ⟨st, hst, hall⟩ := ih (tgts ++ [h.join dir p]) (mapAssign md5 p (h.join dir p))
      (t ++ [Event.mkdirAll (h.dir (h.join dir p))] ++
        [Event.run ["sudo", "cp", p, h.join dir p]
          (h.runCommand (t ++ [Event.mkdirAll (h.dir (h.join dir p))])
            ["sudo", "cp", p, h.join dir p])])
    refine ⟨[Event.mkdirAll (h.dir (h.join dir p)),
        Event.run ["sudo", "cp", p, h.join dir p]
          (h.runCommand (t ++ [Event.mkdirAll (h.dir (h.join dir p))])
            ["sudo", "cp", p, h.join dir p])] ++ st, ?_, ?_⟩
    · simp only [stageLoop, Exec]
      rw [hst]
      simp
    · intro ev hev
      rcases List.mem_append.mp hev with h1 | h1
      · simp at h1
        rcases h1 with h1 | h1 <;> simp [h1, isStaging]
      · exact hall ev h1

/-- The run of `MD5s` once `TempDir` has given `dir`. -/
theorem MD5s_run (h : Host) (paths : List String) (t : Trace) (dir : String)
    (hd : h.tempDir t "/tmp" "md5" = .ok dir) :
    ∃ (staging : Trace) (r : Option GoError) (tmd5s : GoMap String),
      MD5s h paths t =
        (.ok ((paths.foldl (fun m p => mapAssign m p (h.join dir p)) []).map
                fun pt => (pt.1, mapIndex tmd5s pt.2)),
         t ++ [Event.tempDir "/tmp" "md5" (.ok dir)] ++ staging ++
           [Event.run ["sudo", "chmod", "-R", "gwo+rw", dir] r,
            Event.digest (paths.map (h.join dir)) tmd5s,
            Event.removeAll dir]) ∧
      ∀ ev ∈ staging, isStaging ev = true := by
  obtain ⟨st, hst, hall⟩ := stageLoop_run h dir paths [] [] (t ++ [Event.tempDir "/tmp" "md5" (.ok dir)])
  refine ⟨st,
    h.runCommand (t ++ [Event.tempDir "/tmp" "md5" (.ok dir)] ++ st)
      ["sudo", "chmod", "-R", "gwo+rw", dir],
    h.localMD5s (t ++ [Event.tempDir "/tmp" "md5" (.ok dir)] ++ st ++
      [Event.run ["sudo", "chmod", "-R", "gwo+rw", dir]
        (h.runCommand (t ++ [Event.tempDir "/tmp" "md5" (.ok dir)] ++ st)
          ["sudo", "chmod", "-R", "gwo+rw", dir])]) (paths.map (h.join dir)),
    ?_, hall⟩
  simp only [MD5s, hd, Exec]
  rw [hst]
  simp

theorem liveTempDirs_removeAll (t : Trace) (dir : String) :
    dir ∉ liveTempDirs (t ++ [Event.removeAll dir]) := by
  simp [liveTempDirs, List.foldl_append, liveStep]

/-- C5: when `ioutil.TempDir` fails, MD5s returns that error and has done
nothing else (no directory made, no copy, no chmod, no digest).  When it gives
a directory, MD5s returns a digest map, and its last effect is
`os.RemoveAll` on that directory: every staging or digesting effect comes
before it, whatever the outcome of each copy, of the chmod and of the digest,
and the directory is no longer among the temporary directories on the host. -/
theorem MD5s_removes_staging_dir (h : Host) (paths : List String) (t : Trace) :
    match h.tempDir t "/tmp" "md5" with
    | .error e => MD5s h paths t = (.error e, t ++ [Event.tempDir "/tmp" "md5" (.error e)])
    | .ok dir =>
      ∃ (md5s : GoMap String) (staging : Trace),
        MD5s h paths t =
          (.ok md5s,
           t ++ [Event.tempDir "/tmp" "md5" (.ok dir)] ++ staging ++ [Event.removeAll dir]) ∧
        (∀ ev ∈ staging, isStaging ev = true) ∧
        dir ∉ liveTempDirs (MD5s h paths t).2 := by
  cases hd : h.tempDir t "/tmp" "md5" with
  | error e => simp [MD5s, hd]
  | ok dir =>
    obtain ⟨st, r, tmd5s, hrun, hall⟩ := MD5s_run h paths t dir hd
    refine ⟨(paths.foldl (fun m p => mapAssign m p (h.join dir p)) []).map
        (fun pt => (pt.1, mapIndex tmd5s pt.2)),
      st ++ [Event.run ["sudo", "chmod", "-R", "gwo+rw", dir] r,
        Event.digest (paths.map (h.join dir)) tmd5s], ?_, ?_, ?_⟩
    · rw [hrun]
      simp
    · intro ev hev
      rcases List.mem_append.mp hev with h1 | h1
      · exact hall ev h1
      · simp at h1
        rcases h1 with h1 | h1 <;> simp [h1, isStaging]
    · rw [hrun]
      have := liveTempDirs_removeAll
        (t ++ [Event.tempDir "/tmp" "md5" (.ok dir)] ++ st ++
          [Event.run ["sudo", "chmod", "-R", "gwo+rw", dir] r,
           Event.digest (paths.map (h.join dir)) tmd5s]) dir
      simpa using this

/-! ## Differing files -/

theorem diffLoop_eq_nil (o : OwnerSet) (l : List String) :
    ∀ diffs : List Message, diffLoop o l diffs = [] ↔ diffs = [] ∧ ∀ x ∈ l, x ∈ o.owners := by
  induction l with
  | nil => intro diffs; simp [diffLoop]
  | cons x rest ih =>
    intro diffs
    by_cases hx : x ∈ o.owners
    · simp [diffLoop, hx, ih]
    · simp [diffLoop, hx, ih]

theorem same_owners_iff (a b : OwnerSet) :
    (a.owners.length = b.owners.length ∧ ∀ x ∈ a.owners, x ∈ b.owners) ↔
      ∀ x, x ∈ a.owners ↔ x ∈ b.owners := by
  constructor
  · rintro ⟨hlen, hsub⟩
    have hsp : a.owners.Subperm b.owners := List.subperm_of_subset a.nodup hsub
    have hperm : a.owners.Perm b.owners := hsp.perm_of_length_le (le_of_eq hlen.symm)
    exact fun x => hperm.mem_iff
  · intro hiff
    have hperm : a.owners.Perm b.owners := (List.perm_ext_iff_of_nodup a.nodup b.nodup).mpr hiff
    exact ⟨hperm.length_eq, fun x hx => (hiff x).mp hx⟩

theorem Diff_false_iff (a b : OwnerSet) :
    (a.Diff b).1 = false ↔ ∀ x, x ∈ a.owners ↔ x ∈ b.owners := by
  rw [← same_owners_iff]
  unfold OwnerSet.Diff
  by_cases hlen : a.owners.length = b.owners.length
  · simp [hlen, diffLoop_eq_nil]
  · simp [hlen, diffLoop_eq_nil]

/-- C7: a.Equal(b) is true exactly when a and b hold the same owner names; Diff
reports a difference exactly when they do not, and then (and only then) its
message list is non-empty; Equal is symmetric. -/
theorem OwnerSet_Equal_iff_same_owners (a b : OwnerSet) :
    (a.Equal b = true ↔ ∀ x, x ∈ a.owners ↔ x ∈ b.owners) ∧
    ((a.Diff b).1 = true ↔ ¬ ∀ x, x ∈ a.owners ↔ x ∈ b.owners) ∧
    ((a.Diff b).1 = true ↔ (a.Diff b).2 ≠ []) ∧
    a.Equal b = b.Equal a := by
  have hEq : ∀ u v : OwnerSet, u.Equal v = true ↔ ∀ x, x ∈ u.owners ↔ x ∈ v.owners := by
    intro u v
    rw [← Diff_false_iff]
    simp [OwnerSet.Equal]
  refine ⟨hEq a b, ?_, ?_, ?_⟩
  · rw [← Diff_false_iff]
    simp
  · simp [OwnerSet.Diff]
  · rw [Bool.eq_iff_iff, hEq a b, hEq b a]
    exact ⟨fun hx x => (hx x).symm, fun hx x => (hx x).symm⟩

/-! ## Status middleware -/

/-- C8 (the code departs from it): for a recovered value that is a string, or
nil, HandlePanic writes status 500 and then panics itself in the type assertion
`recovered.(error)`, before any body is written; this for every environment,
request and middleware state, with or without a log set. -/
theorem HandlePanic_panics_on_non_error (rt : Runtime) (r : Request) (s : Served) (msg : String) :
    ((HandlePanic rt r (GoValue.str msg)).run.run s).1
        = .error "interface conversion: string is not error: missing method Error" ∧
    ((HandlePanic rt r (GoValue.str msg)).run.run s).2.w = s.w ++ [WEvent.writeHeader 500] ∧
    ((HandlePanic rt r GoValue.nil).run.run s).1
        = .error "interface conversion: interface is nil, not error" ∧
    ((HandlePanic rt r GoValue.nil).run.run s).2.w = s.w ++ [WEvent.writeHeader 500] := by
  obtain ⟨⟨g, ls⟩, w, lg⟩ := s
  cases ls <;> exact ⟨rfl, rfl, rfl, rfl⟩

/-! ## Singularity volume -/

/-- C9 (the code departs from it): after ClearField the key is still in
`present` (with value false) and GetField only tests that the key is there, so
GetField returns the stored value with a nil error.  On a fresh volume,
SetField("containerPath", "/data"), ClearField("containerPath"),
GetField("containerPath") gives "/data"; and ClearField on a never-set field
makes GetField return "". -/
theorem GetField_after_ClearField_returns_value :
    ((((SingularityVolume.mk none "" "").SetField "containerPath" (GoValue.str "/data")).2.ClearField
        "containerPath").2.GetField "containerPath" = .ok (GoValue.str "/data")) ∧
    (((SingularityVolume.mk none "" "").ClearField "hostPath").2.GetField "hostPath"
        = .ok (GoValue.str "")) ∧
    (∀ self : SingularityVolume,
      (self.ClearField "containerPath").1 = none ∧
      (self.ClearField "containerPath").2.GetField "containerPath"
        = .ok (GoValue.str self.ContainerPath)) := by
  refine ⟨rfl, rfl, ?_⟩
  intro self
  obtain ⟨present, cp, hp⟩ := self
  cases present <;>
    simp [SingularityVolume.ClearField, SingularityVolume.GetField, ensurePresent,
      mapLookup_mapAssign]

end Sous
